import Mathlib

/-!
# Semantic corpus and search engine: verification of the specification

Shallow embedding of the text-intelligence service. The request dispatcher
and the request schemas are translated from `src/app/main.py` and
`src/app/schemas.py`. The semantic engine itself (`app/embeddings.py`:
`SemanticSearchEngine.search`, `add_text`, `get_corpus_size`, and the
similarity scorer) is not part of the provided sources, so those
definitions are modelled from the specification and marked as such.

Modelling conventions: Python floats are modelled as rationals where the
computation is algebraic (vector entries, scores) and as real numbers for
the cosine similarity scorer (which needs square roots); Python exceptions
and HTTP error responses (pydantic 422, HTTPException 400/500) are
modelled as `Except ApiError`; `str.strip()` is modelled by `pyStrip`.
-/

/-- Error outcomes surfaced to a caller: `invalidInput` covers both a
pydantic validation rejection (422) and the handlers' explicit 400
rejections; the remaining constructors model the engine's failure modes. -/
inductive ApiError where
  | invalidInput
  | dimensionMismatch
  | embeddingFailure (message : String)
  | internalError (message : String)
deriving DecidableEq

/-- Python's `str.strip()`: remove leading and trailing whitespace. -/
def pyStrip (s : String) : String :=
  String.mk (((s.data.dropWhile Char.isWhitespace).reverse.dropWhile Char.isWhitespace).reverse)

/-- `TextRequest` from `src/app/schemas.py`: `text` has `min_length=1`. -/
def textRequestValid (text : String) : Bool :=
  decide (1 ≤ text.length)

/-- `SemanticSearchRequest` from `src/app/schemas.py`: `query` has
`min_length=1` and `top_k` is constrained by `ge=1, le=100`. -/
def semanticSearchRequestValid (query : String) (top_k : Int) : Bool :=
  decide (1 ≤ query.length) && decide (1 ≤ top_k) && decide (top_k ≤ 100)

/-- `CorpusAddRequest` from `src/app/schemas.py`: `texts` has `min_items=1`. -/
def corpusAddRequestValid (texts : List String) : Bool :=
  decide (1 ≤ texts.length)

/-- A corpus entry: immutable `(text, vector, sequence_id)` triple.
Vector components are modelled as rationals. -/
structure CorpusEntry where
  text : String
  vector : List ℚ
  seq_id : Nat
deriving DecidableEq

/-- An entry of the corpus scored against a query vector. -/
structure ScoredEntry where
  score : ℚ
  seq_id : Nat
  text : String
deriving DecidableEq

/-- Ranking order for search results: higher score first, ties broken by
ascending sequence id (the earlier-added entry first). -/
def rankLE (a b : ScoredEntry) : Bool :=
  decide (b.score < a.score) || (decide (a.score = b.score) && decide (a.seq_id ≤ b.seq_id))

/-- Score every snapshot entry against the query vector `qv`. -/
def score_corpus (sim : List ℚ → List ℚ → ℚ) (qv : List ℚ) (corpus : List CorpusEntry) :
    List ScoredEntry :=
  corpus.map (fun e => ⟨sim qv e.vector, e.seq_id, e.text⟩)

/-- Modelled from the spec: `SemanticSearchEngine.search` of the missing
`app/embeddings.py` (spec §4.3). Rejects an empty or whitespace-only query
and a non-positive `k` with `InvalidInput`, embeds the query, snapshots
the corpus, scores every entry, sorts by descending similarity with
ascending `sequence_id` on ties, and returns the texts of the top `k`. -/
def engine_search (embed : String → Except String (List ℚ)) (sim : List ℚ → List ℚ → ℚ)
    (q : String) (k : Int) (corpus : List CorpusEntry) : Except ApiError (List String) :=
  if pyStrip q = "" then .error .invalidInput
  else if k ≤ 0 then .error .invalidInput
  else
    match embed q with
    | .error m => .error (.embeddingFailure m)
    | .ok qv => .ok ((((score_corpus sim qv corpus).mergeSort rankLE).take k.toNat).map ScoredEntry.text)

/-- The `/semantic-search` endpoint from `src/app/main.py`: pydantic
validation of the request, then `query.strip()` with an emptiness check,
then delegation to the engine. -/
def semantic_search (embed : String → Except String (List ℚ)) (sim : List ℚ → List ℚ → ℚ)
    (query : String) (top_k : Int) (corpus : List CorpusEntry) : Except ApiError (List String) :=
  if semanticSearchRequestValid query top_k then
    if pyStrip query = "" then .error .invalidInput
    else engine_search embed sim (pyStrip query) top_k corpus
  else .error .invalidInput

/-- Embed each text in order; the first embedding failure aborts the whole
traversal with the underlying error. -/
def embed_all (embed : String → Except String (List ℚ)) : List String → Except String (List (List ℚ))
  | [] => .ok []
  | t :: ts =>
    match embed t with
    | .error m => .error m
    | .ok v =>
      match embed_all embed ts with
      | .error m => .error m
      | .ok vs => .ok (v :: vs)

/-- Build corpus entries from `(text, vector)` pairs, assigning sequence
ids contiguously starting at `n`. -/
def mk_entries : List (String × List ℚ) → Nat → List CorpusEntry
  | [], _ => []
  | p :: ps, n => ⟨p.1, p.2, n⟩ :: mk_entries ps (n + 1)

/-- Modelled from the spec: `CorpusStore.append` (spec §4.1). Atomic batch
insert: if any vector's length differs from the corpus dimensionality `D`
the whole call fails with `DimensionMismatch` and nothing is appended;
otherwise all entries are appended with contiguous sequence ids. -/
def corpus_append (D : Nat) (pairs : List (String × List ℚ)) (corpus : List CorpusEntry) :
    Except ApiError (List CorpusEntry) :=
  if pairs.all (fun p => p.2.length == D) then .ok (corpus ++ mk_entries pairs corpus.length)
  else .error .dimensionMismatch

/-- Modelled from the spec: `SemanticSearchEngine.add_text` of the missing
`app/embeddings.py` (spec §4.3). Rejects an empty batch, embeds every
text (any single failure aborts the whole call with the underlying
error), then appends atomically. -/
def engine_add (embed : String → Except String (List ℚ)) (D : Nat)
    (texts : List String) (corpus : List CorpusEntry) : Except ApiError (List CorpusEntry) :=
  if texts.isEmpty then .error .invalidInput
  else
    match embed_all embed texts with
    | .error m => .error (.embeddingFailure m)
    | .ok vecs => corpus_append D (texts.zip vecs) corpus

/-- The `/corpus/add` endpoint from `src/app/main.py`: pydantic validation
(`min_items=1`), the handler's own emptiness check (line 98), then the
engine call; on success the new size is reported. The pair returned is
(response, corpus after the call). -/
def add_to_corpus (embed : String → Except String (List ℚ)) (D : Nat)
    (texts : List String) (corpus : List CorpusEntry) : Except ApiError Nat × List CorpusEntry :=
  if corpusAddRequestValid texts then
    if texts.isEmpty then (.error .invalidInput, corpus)
    else
      match engine_add embed D texts corpus with
      | .error e => (.error e, corpus)
      | .ok c2 => (.ok c2.length, c2)
  else (.error .invalidInput, corpus)

/-- The `/corpus/size` endpoint from `src/app/main.py`, delegating to the
engine's `get_corpus_size`; modelled from the spec as the entry count. -/
def get_corpus_size (corpus : List CorpusEntry) : Nat :=
  corpus.length

/-- One observable operation of the service's corpus interface. -/
inductive ApiOp where
  | search (query : String) (k : Int)
  | add (texts : List String)
  | size

/-- Modelled from the spec: the state transition of one operation on the
corpus (spec §3, §4). `search` and `size` are reads and leave the corpus
unchanged; `add` transitions to the corpus produced by `/corpus/add`. -/
def api_step (embed : String → Except String (List ℚ)) (D : Nat)
    (corpus : List CorpusEntry) : ApiOp → List CorpusEntry
  | .search _ _ => corpus
  | .add ts => (add_to_corpus embed D ts corpus).2
  | .size => corpus

/-- Run a sequence of operations from an initial corpus. -/
def api_run (embed : String → Except String (List ℚ)) (D : Nat)
    (corpus : List CorpusEntry) (ops : List ApiOp) : List CorpusEntry :=
  ops.foldl (api_step embed D) corpus

/-- Sentiment labels from `src/app/schemas.py`. -/
inductive Sentiment where
  | positive
  | negative
  | neutral
deriving DecidableEq

/-- A websocket response message (`WebSocketMessage` in `src/app/schemas.py`):
either an analysis payload or an error payload. -/
inductive WsMessage where
  | analysis (sentiment : Sentiment) (keywords : List String)
  | errorMsg (message : String)
deriving DecidableEq

/-- The `/analyze` endpoint from `src/app/main.py`: pydantic validation
(`min_length=1`), `text.strip()` with an emptiness check (400), then the
NLP collaborators; a collaborator failure propagates. -/
def analyze (nlp : String → Except String (Sentiment × List String)) (text : String) :
    Except ApiError (Sentiment × List String) :=
  if textRequestValid text then
    if pyStrip text = "" then .error .invalidInput
    else
      match nlp (pyStrip text) with
      | .ok r => .ok r
      | .error m => .error (.internalError m)
  else .error .invalidInput

/-- One iteration of the `/ws/analyze` loop body from `src/app/main.py`
(lines 122-146): a message whose text strips to empty is skipped with no
response at all; otherwise the NLP collaborators run on the raw message
and either an analysis message or an error message is sent. -/
def ws_handle_message (nlp : String → Except String (Sentiment × List String))
    (data : String) : Option WsMessage :=
  if pyStrip data = "" then none
  else
    match nlp data with
    | .ok r => some (.analysis r.1 r.2)
    | .error m => some (.errorMsg m)

/-- The `/ws/analyze` receive loop over a finite stream of incoming
messages: the sequence of messages sent back. -/
def ws_process (nlp : String → Except String (Sentiment × List String)) :
    List String → List WsMessage
  | [] => []
  | d :: ds =>
    match ws_handle_message nlp d with
    | none => ws_process nlp ds
    | some m => m :: ws_process nlp ds

/-- Dot product of two real vectors (pairwise products of the common
prefix, summed). -/
def dotR (a b : List ℝ) : ℝ :=
  (List.zipWith (fun x y => x * y) a b).sum

/-- Euclidean magnitude of a real vector. -/
noncomputable def normR (a : List ℝ) : ℝ :=
  Real.sqrt (dotR a a)

/-- Modelled from the spec: the similarity scorer of the missing
`app/embeddings.py` (spec §4.2) — cosine similarity
`dot(a,b) / (norm(a) * norm(b))`, defined as `0.0` when either vector has
zero magnitude, so no division error can occur. Floats are modelled as
real numbers. -/
noncomputable def similarity (a b : List ℝ) : ℝ :=
  if normR a = 0 ∨ normR b = 0 then 0 else dotR a b / (normR a * normR b)

/-- Rational dot product, used as a concrete scoring function in witnesses. -/
def dotQ (a b : List ℚ) : ℚ :=
  (List.zipWith (fun x y => x * y) a b).sum

/-! ### Concrete fixtures used by witnesses and counterexamples -/

/-- A concrete embedding function that always succeeds. -/
def embedW : String → Except String (List ℚ) :=
  fun _ => .ok [1]

/-- A concrete query string. -/
def qQuery : String := "query"

/-- Concrete corpus texts. -/
def tCat : String := "the cat sat on the mat"

def tDog : String := "dogs are loyal animals"

def tPet : String := "cats are independent pets"

/-- A concrete three-entry corpus. -/
def corpusW3 : List CorpusEntry :=
  [⟨tCat, [1], 0⟩, ⟨tDog, [2], 1⟩, ⟨tPet, [3], 2⟩]

/-- Extract the vector of a successful embedding result (default `[]`),
used to describe the output of `embed_all` when every embedding succeeds. -/
def okD (r : Except String (List ℚ)) : List ℚ :=
  match r with
  | .ok v => v
  | .error _ => []

/-- A marker text on which `embedFailW` fails. -/
def tBad : String := "unembeddable"

/-- A concrete embedding failure message. -/
def mBoom : String := "model exploded"

/-- A concrete embedding function that fails exactly on `tBad`. -/
def embedFailW : String → Except String (List ℚ) :=
  fun t => if t = tBad then .error mBoom else .ok [1]

/-! ### Stripping is idempotent -/

theorem pyStrip_idem (s : String) : pyStrip (pyStrip s) = pyStrip s := by
  have hdef : ∀ l : List Char, (l.reverse.dropWhile Char.isWhitespace).reverse
      = List.rdropWhile Char.isWhitespace l := fun _ => rfl
  unfold pyStrip
  simp only [hdef]
  show String.mk (List.rdropWhile Char.isWhitespace
      ((List.rdropWhile Char.isWhitespace (s.data.dropWhile Char.isWhitespace)).dropWhile
        Char.isWhitespace)) = _
  have h1 : (List.rdropWhile Char.isWhitespace
      (s.data.dropWhile Char.isWhitespace)).dropWhile Char.isWhitespace
      = List.rdropWhile Char.isWhitespace (s.data.dropWhile Char.isWhitespace) := by
    obtain ⟨t, ht⟩ := List.rdropWhile_prefix Char.isWhitespace (s.data.dropWhile Char.isWhitespace)
    cases hr : List.rdropWhile Char.isWhitespace (s.data.dropWhile Char.isWhitespace) with
    | nil => simp
    | cons x r2 =>
      have hB : (s.data.dropWhile Char.isWhitespace).head? = some x := by
        rw [← ht, hr]
        rfl
      have hpx := List.head?_dropWhile_not Char.isWhitespace s.data
      rw [hB] at hpx
      simp only [] at hpx
      simp [List.dropWhile_cons, hpx]
  rw [h1, List.rdropWhile_idempotent]

/-! ### Properties of the ranking order -/

theorem rankLE_iff (a b : ScoredEntry) :
    rankLE a b = true ↔ (b.score < a.score ∨ (a.score = b.score ∧ a.seq_id ≤ b.seq_id)) := by
  simp [rankLE]

theorem rankLE_trans (a b c : ScoredEntry) (h1 : rankLE a b) (h2 : rankLE b c) : rankLE a c := by
  rw [rankLE_iff] at h1 h2 ⊢
  rcases h1 with h1 | ⟨h1e, h1s⟩ <;> rcases h2 with h2 | ⟨h2e, h2s⟩
  · exact Or.inl (lt_trans h2 h1)
  · exact Or.inl (h2e ▸ h1)
  · exact Or.inl (by rw [h1e]; exact h2)
  · exact Or.inr ⟨h1e.trans h2e, le_trans h1s h2s⟩

theorem rankLE_total (a b : ScoredEntry) : rankLE a b || rankLE b a := by
  simp only [Bool.or_eq_true, rankLE_iff]
  rcases lt_trichotomy a.score b.score with h | h | h
  · exact Or.inr (Or.inl h)
  · rcases Nat.le_total a.seq_id b.seq_id with hs | hs
    · exact Or.inl (Or.inr ⟨h, hs⟩)
    · exact Or.inr (Or.inr ⟨h.symm, hs⟩)
  · exact Or.inl (Or.inl h)

theorem pairwise_mergeSort_rank (l : List ScoredEntry) :
    (l.mergeSort rankLE).Pairwise
      (fun a b => b.score < a.score ∨ (a.score = b.score ∧ a.seq_id ≤ b.seq_id)) := by
  have h := List.sorted_mergeSort (fun a b c => rankLE_trans a b c) (fun a b => rankLE_total a b) l
  exact h.imp (fun hab => (rankLE_iff _ _).mp hab)

/-! ### C1 -/

/-- C1: for every accepted query (non-empty after stripping, successfully
embedded) and positive `k`, `search(query, k)` returns the texts of a
ranked list whose length is `min(k, corpus_size())`, ordered by
non-increasing similarity score with ties broken by ascending sequence
id (the earlier-added entry first). -/
theorem search_ranking_contract (embed : String → Except String (List ℚ))
    (sim : List ℚ → List ℚ → ℚ) (q : String) (k : Int) (corpus : List CorpusEntry)
    (qv : List ℚ) (hq : pyStrip q ≠ "") (hk : 0 < k) (he : embed q = .ok qv) :
    ∃ ranked : List ScoredEntry,
      engine_search embed sim q k corpus = .ok (ranked.map ScoredEntry.text) ∧
      ranked.length = min k.toNat (get_corpus_size corpus) ∧
      ranked.Pairwise
        (fun a b => b.score < a.score ∨ (a.score = b.score ∧ a.seq_id ≤ b.seq_id)) := by
  refine ⟨((score_corpus sim qv corpus).mergeSort rankLE).take k.toNat, ?_, ?_, ?_⟩
  · unfold engine_search
    rw [if_neg hq, if_neg (not_le.mpr hk), he]
  · rw [List.length_take, List.length_mergeSort]
    simp [score_corpus, get_corpus_size]
  · exact (pairwise_mergeSort_rank _).sublist (List.take_sublist _ _)

/-- Witness for C1 at a concrete query, `k = 2` and the three-entry corpus. -/
theorem search_ranking_contract_witness :
    ∃ ranked : List ScoredEntry,
      engine_search embedW dotQ qQuery 2 corpusW3 = .ok (ranked.map ScoredEntry.text) ∧
      ranked.length = min (2 : Int).toNat (get_corpus_size corpusW3) ∧
      ranked.Pairwise
        (fun a b => b.score < a.score ∨ (a.score = b.score ∧ a.seq_id ≤ b.seq_id)) :=
  search_ranking_contract embedW dotQ qQuery 2 corpusW3 [1] (by decide) (by decide) rfl

/-! ### C2 -/

/-- Counterexample to C2 as stated: through the service interface,
`search("query", 1000)` against the three-entry corpus is rejected by the
request validation of `SemanticSearchRequest` (`top_k` has `le=100` in
`src/app/schemas.py`), so the call fails instead of returning the three
entries. -/
theorem topk_1000_rejected :
    semantic_search embedW dotQ qQuery 1000 corpusW3 = .error .invalidInput ∧
    get_corpus_size corpusW3 = 3 := by
  constructor
  · rfl
  · rfl

/-- C2 as amended: for every `k` that exceeds the corpus size but lies
within the interface bound (`k ≤ 100`, enforced by the request schema),
an accepted search returns all available entries (a permutation of every
corpus text) and never fails. -/
theorem search_k_exceeds_size_within_bound (embed : String → Except String (List ℚ))
    (sim : List ℚ → List ℚ → ℚ) (query : String) (k : Int) (corpus : List CorpusEntry)
    (qv : List ℚ) (hval : semanticSearchRequestValid query k = true)
    (hq : pyStrip query ≠ "") (he : embed (pyStrip query) = .ok qv)
    (hk : (get_corpus_size corpus : Int) < k) :
    ∃ res : List String,
      semantic_search embed sim query k corpus = .ok res ∧
      res.Perm (corpus.map CorpusEntry.text) := by
  have hkpos : ¬ k ≤ 0 := by
    unfold get_corpus_size at hk
    omega
  refine ⟨(((score_corpus sim qv corpus).mergeSort rankLE).take k.toNat).map ScoredEntry.text, ?_, ?_⟩
  · unfold semantic_search engine_search
    rw [if_pos hval, if_neg hq, pyStrip_idem, if_neg hq, if_neg hkpos, he]
  · have hlen : ((score_corpus sim qv corpus).mergeSort rankLE).length ≤ k.toNat := by
      rw [List.length_mergeSort]
      unfold get_corpus_size at hk
      simp only [score_corpus, List.length_map]
      omega
    rw [List.take_of_length_le hlen]
    have hperm : ((score_corpus sim qv corpus).mergeSort rankLE).Perm (score_corpus sim qv corpus) :=
      List.mergeSort_perm _ _
    have := hperm.map ScoredEntry.text
    refine this.trans ?_
    simp only [score_corpus, List.map_map]
    exact List.Perm.refl _

/-- Witness for C2's amended theorem at `k = 50` against the three-entry
corpus. -/
theorem search_k_exceeds_size_within_bound_witness :
    ∃ res : List String,
      semantic_search embedW dotQ qQuery 50 corpusW3 = .ok res ∧
      res.Perm (corpusW3.map CorpusEntry.text) :=
  search_k_exceeds_size_within_bound embedW dotQ qQuery 50 corpusW3 [1]
    (by decide) (by decide) rfl (by decide)

/-! ### C4 -/

/-- C4: a query that is empty or whitespace-only, or a non-positive `k`,
makes `search` fail with `InvalidInput` (the pydantic validation rejects
the empty string and any `k < 1`; the handler's own check rejects
whitespace-only queries), so no results are returned. -/
theorem search_invalid_input_rejected (embed : String → Except String (List ℚ))
    (sim : List ℚ → List ℚ → ℚ) (query : String) (k : Int) (corpus : List CorpusEntry)
    (h : pyStrip query = "" ∨ k ≤ 0) :
    semantic_search embed sim query k corpus = .error .invalidInput := by
  unfold semantic_search
  by_cases hval : semanticSearchRequestValid query k = true
  · rw [if_pos hval]
    rcases h with hq | hk
    · rw [if_pos hq]
    · exfalso
      simp only [semanticSearchRequestValid, Bool.and_eq_true, decide_eq_true_eq] at hval
      omega
  · rw [if_neg hval]

/-- Witness for C4 at a whitespace-only query and at a non-positive `k`. -/
theorem search_invalid_input_rejected_witness :
    (pyStrip " " = "" ∨ (3 : Int) ≤ 0) ∧
    semantic_search embedW dotQ " " 3 corpusW3 = .error .invalidInput ∧
    (pyStrip qQuery = "" ∨ (0 : Int) ≤ 0) ∧
    semantic_search embedW dotQ qQuery 0 corpusW3 = .error .invalidInput :=
  ⟨Or.inl (by decide),
   search_invalid_input_rejected embedW dotQ " " 3 corpusW3 (Or.inl (by decide)),
   Or.inr (by decide),
   search_invalid_input_rejected embedW dotQ qQuery 0 corpusW3 (Or.inr (by decide))⟩

/-! ### C5 -/

/-- C5: `add([])` fails with `InvalidInput` (rejected by the
`min_items=1` request validation, and by the handler's own check) and the
corpus is unchanged. -/
theorem add_empty_rejected (embed : String → Except String (List ℚ)) (D : Nat)
    (corpus : List CorpusEntry) :
    add_to_corpus embed D [] corpus = (.error .invalidInput, corpus) := rfl

/-! ### C3 -/

theorem embed_all_error_of_mem (embed : String → Except String (List ℚ)) (ts : List String)
    (t : String) (m : String) (ht : t ∈ ts) (he : embed t = .error m) :
    ∃ m2, embed_all embed ts = .error m2 ∧ ∃ t2 ∈ ts, embed t2 = .error m2 := by
  induction ts with
  | nil => cases ht
  | cons t0 ts ih =>
    rcases List.mem_cons.mp ht with rfl | hmem
    · exact ⟨m, by simp [embed_all, he], t, List.mem_cons_self _ _, he⟩
    · cases h0 : embed t0 with
      | error m0 => exact ⟨m0, by simp [embed_all, h0], t0, List.mem_cons_self _ _, h0⟩
      | ok v0 =>
        obtain ⟨m2, hall, t2, ht2, he2⟩ := ih hmem
        exact ⟨m2, by simp [embed_all, h0, hall], t2, List.mem_cons_of_mem _ ht2, he2⟩

theorem embed_all_ok_of_forall (embed : String → Except String (List ℚ)) (ts : List String)
    (h : ∀ t ∈ ts, ∃ v, embed t = .ok v) :
    embed_all embed ts = .ok (ts.map (fun t => okD (embed t))) := by
  induction ts with
  | nil => rfl
  | cons t0 ts ih =>
    obtain ⟨v0, hv0⟩ := h t0 (List.mem_cons_self _ _)
    have hrest := ih (fun t htm => h t (List.mem_cons_of_mem _ htm))
    simp [embed_all, hv0, hrest, okD]

theorem zip_self_map {α β : Type} (l : List α) (g : α → β) :
    l.zip (l.map g) = l.map (fun a => (a, g a)) := by
  induction l with
  | nil => rfl
  | cons x xs ih => simp [ih]

/-- C3: `add` is atomic. If any text's embedding fails, or any produced
vector's length differs from the corpus dimensionality `D`, the whole
call fails — with the underlying embedding error or with
`DimensionMismatch` respectively — and the corpus is unchanged; nothing
is partially appended. -/
theorem add_atomic_on_failure (embed : String → Except String (List ℚ)) (D : Nat)
    (texts : List String) (corpus : List CorpusEntry)
    (h : (∃ t ∈ texts, ∃ m, embed t = .error m) ∨
         (∃ t ∈ texts, ∃ v, embed t = .ok v ∧ v.length ≠ D)) :
    ∃ e : ApiError,
      ((∃ m, e = .embeddingFailure m ∧ ∃ t ∈ texts, embed t = .error m) ∨
        e = .dimensionMismatch) ∧
      add_to_corpus embed D texts corpus = (.error e, corpus) := by
  have hne : texts ≠ [] := by
    rcases h with ⟨t, ht, _⟩ | ⟨t, ht, _⟩ <;> exact List.ne_nil_of_mem ht
  have hval : corpusAddRequestValid texts = true := by
    simp only [corpusAddRequestValid, decide_eq_true_eq]
    have := List.length_pos.mpr hne
    omega
  have hemp : texts.isEmpty = false := by
    rw [Bool.eq_false_iff]
    intro h2
    exact hne (List.isEmpty_iff.mp h2)
  by_cases hall : ∀ t ∈ texts, ∃ v, embed t = .ok v
  · have hok := embed_all_ok_of_forall embed texts hall
    rcases h with ⟨t, ht, m, hm⟩ | ⟨t, ht, v, hv, hvD⟩
    · obtain ⟨v, hveq⟩ := hall t ht
      rw [hveq] at hm
      cases hm
    · have hbad : ((texts.zip (texts.map (fun t2 => okD (embed t2)))).all
          (fun p => p.2.length == D)) = false := by
        rw [zip_self_map, Bool.eq_false_iff]
        intro htrue
        rw [List.all_eq_true] at htrue
        have hokd : okD (embed t) = v := by rw [hv]; rfl
        have h5 := htrue (t, okD (embed t)) (List.mem_map_of_mem _ ht)
        simp only [hokd, beq_iff_eq] at h5
        exact hvD h5
      have hengine : engine_add embed D texts corpus = .error .dimensionMismatch := by
        unfold engine_add
        rw [if_neg (by simp [hemp]), hok]
        show corpus_append D (texts.zip (List.map (fun t2 => okD (embed t2)) texts)) corpus = _
        unfold corpus_append
        rw [if_neg (by simp [hbad])]
      refine ⟨.dimensionMismatch, Or.inr rfl, ?_⟩
      unfold add_to_corpus
      rw [if_pos hval, if_neg (by simp [hemp]), hengine]
  · push_neg at hall
    obtain ⟨t, ht, hnv⟩ := hall
    cases hm : embed t with
    | ok v => exact absurd hm (hnv v)
    | error m =>
      obtain ⟨m2, hallerr, t2, ht2, he2⟩ := embed_all_error_of_mem embed texts t m ht hm
      have hengine : engine_add embed D texts corpus = .error (.embeddingFailure m2) := by
        unfold engine_add
        rw [if_neg (by simp [hemp]), hallerr]
      refine ⟨.embeddingFailure m2, Or.inl ⟨m2, rfl, t2, ht2, he2⟩, ?_⟩
      unfold add_to_corpus
      rw [if_pos hval, if_neg (by simp [hemp]), hengine]

/-- Witness for C3: a two-text batch whose second text fails to embed is
rejected wholesale and leaves the corpus unchanged. -/
theorem add_atomic_on_failure_witness :
    ∃ e : ApiError,
      ((∃ m, e = .embeddingFailure m ∧ ∃ t ∈ [tCat, tBad], embedFailW t = .error m) ∨
        e = .dimensionMismatch) ∧
      add_to_corpus embedFailW 1 [tCat, tBad] corpusW3 = (.error e, corpusW3) :=
  add_atomic_on_failure embedFailW 1 [tCat, tBad] corpusW3
    (Or.inl ⟨tBad, by simp, mBoom, by simp [embedFailW]⟩)

/-! ### C6 -/

theorem engine_add_ok_append (embed : String → Except String (List ℚ)) (D : Nat)
    (ts : List String) (corpus : List CorpusEntry) (c2 : List CorpusEntry)
    (h : engine_add embed D ts corpus = .ok c2) : ∃ tail, c2 = corpus ++ tail := by
  unfold engine_add at h
  by_cases he : ts.isEmpty = true
  · rw [if_pos he] at h
    cases h
  · rw [if_neg he] at h
    cases hall : embed_all embed ts with
    | error m =>
      rw [hall] at h
      cases h
    | ok vecs =>
      simp only [hall] at h
      unfold corpus_append at h
      by_cases hc : ((ts.zip vecs).all fun p => p.2.length == D) = true
      · rw [if_pos hc] at h
        refine ⟨mk_entries (ts.zip vecs) corpus.length, ?_⟩
        injection h with h2
        exact h2.symm
      · rw [if_neg hc] at h
        cases h

theorem api_step_size_le (embed : String → Except String (List ℚ)) (D : Nat)
    (corpus : List CorpusEntry) (op : ApiOp) :
    corpus.length ≤ (api_step embed D corpus op).length := by
  cases op with
  | search q k => exact le_refl _
  | size => exact le_refl _
  | add ts =>
    show corpus.length ≤ (add_to_corpus embed D ts corpus).2.length
    unfold add_to_corpus
    by_cases h1 : corpusAddRequestValid ts = true
    · rw [if_pos h1]
      by_cases h2 : ts.isEmpty = true
      · rw [if_pos h2]
      · rw [if_neg h2]
        cases h3 : engine_add embed D ts corpus with
        | error e => simp
        | ok c2 =>
          obtain ⟨tail, htail⟩ := engine_add_ok_append embed D ts corpus c2 h3
          simp only [htail, List.length_append]
          omega
    · rw [if_neg h1]

/-- C6: the corpus size is monotonically non-decreasing across every
sequence of operations — `search` and `size` are pure reads, and `add`
only ever appends, so the size after running any operation sequence is at
least the size before. -/
theorem corpus_size_monotone (embed : String → Except String (List ℚ)) (D : Nat)
    (corpus : List CorpusEntry) (ops : List ApiOp) :
    get_corpus_size corpus ≤ get_corpus_size (api_run embed D corpus ops) := by
  induction ops generalizing corpus with
  | nil => exact le_refl _
  | cons op ops ih =>
    calc get_corpus_size corpus
        ≤ (api_step embed D corpus op).length := api_step_size_le embed D corpus op
      _ ≤ get_corpus_size (api_run embed D (api_step embed D corpus op) ops) :=
          ih (api_step embed D corpus op)
      _ = get_corpus_size (api_run embed D corpus (op :: ops)) := rfl

/-! ### C7 -/

/-- C7: `search` is deterministic over an unchanged corpus — a search
call does not change the corpus, and a second search with the same query
and `k` against the resulting state returns the identical ordered result
sequence. -/
theorem search_deterministic (embed : String → Except String (List ℚ))
    (sim : List ℚ → List ℚ → ℚ) (D : Nat) (q : String) (k : Int)
    (corpus : List CorpusEntry) :
    api_step embed D corpus (.search q k) = corpus ∧
    semantic_search embed sim q k (api_step embed D corpus (.search q k)) =
      semantic_search embed sim q k corpus :=
  ⟨rfl, rfl⟩

/-! ### C8 and C9: the similarity scorer -/

theorem dotR_comm (a b : List ℝ) : dotR a b = dotR b a := by
  induction a generalizing b with
  | nil => cases b <;> rfl
  | cons x xs ih =>
    cases b with
    | nil => rfl
    | cons y ys =>
      simp only [dotR, List.zipWith_cons_cons, List.sum_cons]
      rw [mul_comm]
      have h2 := ih ys
      simp only [dotR] at h2
      rw [h2]

theorem dotR_self_nonneg (a : List ℝ) : 0 ≤ dotR a a := by
  induction a with
  | nil => simp [dotR]
  | cons x xs ih =>
    simp only [dotR, List.zipWith_cons_cons, List.sum_cons]
    simp only [dotR] at ih
    have h2 : 0 ≤ x * x := mul_self_nonneg x
    linarith

theorem dotR_eq_sum (a b : List ℝ) (h : a.length = b.length) :
    dotR a b = ∑ i ∈ Finset.range a.length, a.getD i 0 * b.getD i 0 := by
  induction a generalizing b with
  | nil => simp [dotR]
  | cons x xs ih =>
    cases b with
    | nil => simp at h
    | cons y ys =>
      simp only [List.length_cons] at h
      have h2 : xs.length = ys.length := by omega
      simp only [dotR, List.zipWith_cons_cons, List.sum_cons, List.length_cons]
      rw [Finset.sum_range_succ']
      simp only [List.getD_cons_succ, List.getD_cons_zero]
      have h3 := ih ys h2
      simp only [dotR] at h3
      rw [h3]
      ring

theorem dotR_sq_le (a b : List ℝ) (h : a.length = b.length) :
    (dotR a b) ^ 2 ≤ dotR a a * dotR b b := by
  rw [dotR_eq_sum a b h, dotR_eq_sum a a rfl, dotR_eq_sum b b rfl, ← h]
  have hcs := Finset.sum_mul_sq_le_sq_mul_sq (Finset.range a.length)
      (fun i => a.getD i 0) (fun i => b.getD i 0)
  simpa [pow_two] using hcs

theorem abs_dotR_le (a b : List ℝ) (h : a.length = b.length) :
    |dotR a b| ≤ normR a * normR b := by
  have h1 : |dotR a b| = Real.sqrt ((dotR a b) ^ 2) := (Real.sqrt_sq_eq_abs _).symm
  rw [h1]
  unfold normR
  rw [← Real.sqrt_mul (dotR_self_nonneg a)]
  exact Real.sqrt_le_sqrt (dotR_sq_le a b h)

/-- C8: the similarity scorer is symmetric on equal-length vectors. -/
theorem similarity_symm (a b : List ℝ) (h : a.length = b.length) :
    similarity a b = similarity b a := by
  unfold similarity
  by_cases hz : normR a = 0 ∨ normR b = 0
  · rw [if_pos hz, if_pos (Or.symm hz)]
  · rw [if_neg hz, if_neg (fun hc => hz (Or.symm hc)), dotR_comm, mul_comm]

/-- Witness for C8 at two concrete equal-length vectors. -/
theorem similarity_symm_witness :
    ([1, 2] : List ℝ).length = ([3, 4] : List ℝ).length ∧
    similarity [1, 2] [3, 4] = similarity [3, 4] [1, 2] :=
  ⟨rfl, similarity_symm [1, 2] [3, 4] rfl⟩

/-- C9: on equal-length vectors, the similarity scorer returns exactly
`0` when either vector has zero magnitude (no division is attempted),
and otherwise a value in `[-1, 1]` (Cauchy-Schwarz). -/
theorem similarity_zero_and_bounded (a b : List ℝ) (h : a.length = b.length) :
    ((normR a = 0 ∨ normR b = 0) → similarity a b = 0) ∧
    (¬(normR a = 0 ∨ normR b = 0) →
      -1 ≤ similarity a b ∧ similarity a b ≤ 1) := by
  constructor
  · intro hz
    unfold similarity
    rw [if_pos hz]
  · intro hz
    unfold similarity
    rw [if_neg hz]
    push_neg at hz
    have ha : 0 < normR a := lt_of_le_of_ne (Real.sqrt_nonneg _) (Ne.symm hz.1)
    have hb : 0 < normR b := lt_of_le_of_ne (Real.sqrt_nonneg _) (Ne.symm hz.2)
    have hpos : 0 < normR a * normR b := mul_pos ha hb
    have habs := abs_dotR_le a b h
    rw [abs_le] at habs
    constructor
    · rw [le_div_iff₀ hpos, neg_one_mul]
      exact habs.1
    · rw [div_le_one hpos]
      exact habs.2

/-- Witness for C9 at a zero vector paired with a nonzero vector. -/
theorem similarity_zero_and_bounded_witness :
    ([0, 0] : List ℝ).length = ([3, 4] : List ℝ).length ∧
    (((normR ([0, 0] : List ℝ) = 0 ∨ normR ([3, 4] : List ℝ) = 0) →
        similarity [0, 0] [3, 4] = 0) ∧
      (¬(normR ([0, 0] : List ℝ) = 0 ∨ normR ([3, 4] : List ℝ) = 0) →
        -1 ≤ similarity [0, 0] [3, 4] ∧ similarity [0, 0] [3, 4] ≤ 1)) :=
  ⟨rfl, similarity_zero_and_bounded [0, 0] [3, 4] rfl⟩

/-! ### C10 -/

/-- C10: a websocket message that strips to empty is silently skipped —
no message of any kind is sent and the loop goes on with the remaining
messages — whereas the HTTP `/analyze` endpoint rejects the same input
with an error. -/
theorem ws_empty_message_skipped (nlp : String → Except String (Sentiment × List String))
    (data : String) (rest : List String) (h : pyStrip data = "") :
    ws_handle_message nlp data = none ∧
    ws_process nlp (data :: rest) = ws_process nlp rest ∧
    analyze nlp data = .error .invalidInput := by
  have h1 : ws_handle_message nlp data = none := by
    unfold ws_handle_message
    rw [if_pos h]
  refine ⟨h1, ?_, ?_⟩
  · show (match ws_handle_message nlp data with
      | none => ws_process nlp rest
      | some m => m :: ws_process nlp rest) = ws_process nlp rest
    rw [h1]
  · unfold analyze
    by_cases hv : textRequestValid data = true
    · rw [if_pos hv, if_pos h]
    · rw [if_neg hv]

/-- Witness for C10 at a whitespace-only message followed by one further
message. -/
theorem ws_empty_message_skipped_witness :
    pyStrip " " = "" ∧
    (ws_handle_message (fun _ => .ok (.neutral, [])) " " = none ∧
      ws_process (fun _ => .ok (.neutral, [])) [" ", tCat] =
        ws_process (fun _ => .ok (.neutral, [])) [tCat] ∧
      analyze (fun _ => .ok (.neutral, [])) " " = .error .invalidInput) :=
  ⟨by decide, ws_empty_message_skipped (fun _ => .ok (.neutral, [])) " " [tCat] (by decide)⟩
